import Mathlib

/-!
Shallow embedding of the go-ipfs session-layer core:
- `peer` : the thread-safe peerstore (src/peer/peerstore.go)
- `bsnet` : the bitswap network transport (src/unnamed/part_000, package network)
- `core` : the node lifecycle (src/core/core.go)

Go interface values (`Peer`) are pointers to mutable records; we model them
as references (`PeerRef`, a natural number) into an explicit heap carried by
the store, so that Go pointer equality (`peer == existing`) and in-place
mutation (`existing.Update(peer)`) are both expressible.  Go `nil` slices and
interface values are modelled with `Option`.  A Go `panic` is a distinguished
result constructor, never an error return.
-/

namespace peer

/-- A peer ID is a multihash: a byte slice, which in Go may be `nil`
(modelled `none`) or a possibly-empty non-nil slice (modelled `some bytes`). -/
abbrev ID := Option (List Nat)

/-- Reference identity of a `*peer` object (Go pointer). -/
abbrev PeerRef := Nat

/-- The mutable record behind one `Peer` pointer: id, key pair, addresses,
version strings and role tag (fields of the `peer` struct). -/
structure PeerData where
  pid : List Nat
  pubKey : Option (List Nat)
  privKey : Option (List Nat)
  addresses : List String
  versions : List String
  role : Nat
deriving DecidableEq, Repr

/-- A bare record carrying only an identity, as built by `&peer{id: i}`. -/
def bareData (bytes : List Nat) : PeerData :=
  { pid := bytes, pubKey := none, privKey := none
    addresses := [], versions := [], role := 0 }

/-- Modelled from the spec: `peer.Update` (the merge used by `Add`) lives in
peer.go, which is not under src/.  Per the spec, address sets are unioned,
keys are adopted only if the existing record lacks them, and version/role
fields are overwritten by the incoming value. -/
def update (existing incoming : PeerData) : PeerData :=
  { existing with
    addresses := existing.addresses ∪ incoming.addresses
    pubKey := existing.pubKey <|> incoming.pubKey
    privKey := existing.privKey <|> incoming.privKey
    versions := incoming.versions
    role := incoming.role }

/-- The peerstore: the Go `data map[string]Peer` keyed by the id's string
rendering (injective on the id bytes, so we key by the bytes directly),
plus the heap of peer records and a fresh-pointer counter. -/
structure Peerstore where
  data : List (List Nat × PeerRef)
  heap : PeerRef → PeerData
  nextRef : PeerRef

/-- `NewPeerstore`: empty map. The heap default is irrelevant: no reference
is ever handed out before being allocated. -/
def NewPeerstore : Peerstore :=
  { data := [], heap := fun _ => bareData [], nextRef := 0 }

/-- Map lookup `ps.data[key]`. -/
def Peerstore.lookup (ps : Peerstore) (key : List Nat) : Option PeerRef :=
  (ps.data.find? (fun e => e.1 = key)).map Prod.snd

/-- Map store `ps.data[key] = p` (left-biased association list: the new
binding shadows any old one, as a Go map assignment overwrites). -/
def Peerstore.store (ps : Peerstore) (key : List Nat) (r : PeerRef) : Peerstore :=
  { ps with data := (key, r) :: ps.data }

/-- Heap write: mutate the record behind one pointer. -/
def Peerstore.heapSet (ps : Peerstore) (r : PeerRef) (d : PeerData) : Peerstore :=
  { ps with heap := fun r2 => if r2 = r then d else ps.heap r2 }

/-- Errors returned by peerstore operations (debugerror values in Go). -/
inductive PSErr where
  /-- "peerstore: invalid argument" -/
  | invalidArgument
  /-- "peerstore: peer %s not present" -/
  | notFound
  /-- "PeerWithKeyPair nil keys" -/
  | nilKeys
  /-- "key mismatch. pubkey is not privkey's pubkey" -/
  | keyMismatch
  /-- "Failed to hash public key: %v" -/
  | hashFailed
deriving DecidableEq, Repr

/-- `Get`: error on nil id, error on absent id, otherwise the stored peer.
An empty-but-non-nil id is NOT caught by the `i == nil` check. -/
def Peerstore.Get (ps : Peerstore) (i : ID) : Except PSErr PeerRef :=
  match i with
  | none => .error .invalidArgument
  | some bytes =>
    match ps.lookup bytes with
    | none => .error .notFound
    | some p => .ok p

/-- Result of `FindOrCreate`: Go panics on a nil id (`panic("wat")`), and
otherwise always returns `(p, nil)` — its error result is always nil. -/
inductive FOCResult where
  | panics
  | ok (ps : Peerstore) (p : PeerRef)

def FOCResult.isOk : FOCResult → Bool
  | .panics => false
  | .ok _ _ => true

/-- `FindOrCreate`: panic on nil id; otherwise return the existing record or
insert and return a newly minted bare record. Never returns an error. -/
def Peerstore.FindOrCreate (ps : Peerstore) (i : ID) : FOCResult :=
  match i with
  | none => .panics
  | some bytes =>
    match ps.lookup bytes with
    | some p => .ok ps p
    | none =>
      let r := ps.nextRef
      let ps2 := (ps.heapSet r (bareData bytes)).store bytes r
      .ok { ps2 with nextRef := ps.nextRef + 1 } r

/-- The map key used by `Add`: `peer.Key().String()`, i.e. the string
rendering of the record's current id bytes (we key by the bytes). -/
def Peerstore.keyOf (ps : Peerstore) (r : PeerRef) : List Nat :=
  (ps.heap r).pid

/-- `Add`: store-and-return when absent; return unchanged when the stored
entry is the same pointer; otherwise merge into the existing record
(`existing.Update(peer)`) and return the existing pointer. -/
def Peerstore.Add (ps : Peerstore) (r : PeerRef) : Peerstore × PeerRef :=
  let key := ps.keyOf r
  match ps.lookup key with
  | none => (ps.store key r, r)
  | some existing =>
    if existing = r then (ps, r)
    else (ps.heapSet existing (update (ps.heap existing) (ps.heap r)), existing)

/-- `Delete`: remove if present; absence is not an error. -/
def Peerstore.Delete (ps : Peerstore) (i : ID) : Peerstore :=
  match i with
  | none => { ps with data := ps.data.filter (fun e => ¬ e.1 = []) }
  | some bytes => { ps with data := ps.data.filter (fun e => ¬ e.1 = bytes) }

/-- Modelled from the spec: `ic.PrivKey.GetPublic` (crypto package, not under
src/) derives the public key from a private key; an injective derivation. -/
def getPublic (sk : List Nat) : List Nat := 0 :: sk

/-- Modelled from the spec: `IDFromPubKey` (peer.go, not under src/) derives
the canonical id by hashing the public key; an injective encoding. -/
def IDFromPubKey (pk : List Nat) : Except String (List Nat) := .ok (1 :: pk)

/-- Result of `WithKeyPair`: a Go nil-pointer dereference (`sk.GetPublic()`
with `sk == nil`) is a panic, not an error return.  Error and success
results carry the resulting store so that (non-)mutation is observable. -/
inductive WKPResult where
  | panics
  | err (e : PSErr) (ps : Peerstore)
  | ok (p : PeerRef) (ps : Peerstore)

def WKPResult.isPanic : WKPResult → Bool
  | .panics => true
  | _ => false

/-- `WithKeyPair`: reject only both-nil keys with an error; then call
`sk.GetPublic()` (panics when sk is nil and pk is not); mismatch between a
supplied pk and the derived one is `KeyMismatch` before any store change;
otherwise allocate `&peer{id, pubKey, privKey}`, `Add` it (result ignored),
and return the freshly allocated peer. -/
def Peerstore.WithKeyPair (ps : Peerstore) (sk pk : Option (List Nat)) : WKPResult :=
  match sk, pk with
  | none, none => .err .nilKeys ps
  | none, some _ => .panics
  | some skv, pkOpt =>
    let pk2 := getPublic skv
    let check : Except PSErr (List Nat) :=
      match pkOpt with
      | none => .ok pk2
      | some pkv => if pkv = pk2 then .ok pkv else .error .keyMismatch
    match check with
    | .error e => .err e ps
    | .ok pkv =>
      match IDFromPubKey pkv with
      | .error _ => .err .hashFailed ps
      | .ok pkid =>
        let r := ps.nextRef
        let d : PeerData := { pid := pkid, pubKey := some pkv, privKey := some skv
                              addresses := [], versions := [], role := 0 }
        let ps2 := { (ps.heapSet r d) with nextRef := ps.nextRef + 1 }
        let added := ps2.Add r
        .ok r added.1

end peer

namespace bsnet

/-- One provider record yielded by the upstream Routing search
(`peer.PeerInfo`: an ID with its known addresses). -/
structure ProviderInfo where
  pid : Nat
  addrs : List String
deriving DecidableEq, Repr

/-- The body of the goroutine in `impl.FindProvidersAsync`, run over the
finite sequence yielded by `bsnet.routing.FindProvidersAsync`.  For each
record: when its id differs from `bsnet.host.ID()` the addresses are
recorded (`host.Peerstore().AddAddresses`); then the select either observes
cancellation and returns, or hands the id off on `out`.  `fuel` models the
context: `none` never cancels, `some k` cancels once `k` handoffs have
succeeded.  Returns the list of AddAddresses calls made and the ids emitted
on `out`, in order. -/
def findProvidersLoop (localID : Nat) (fuel : Option Nat) :
    List ProviderInfo → List (Nat × List String) × List Nat
  | [] => ([], [])
  | info :: rest =>
    let adds := if info.pid ≠ localID then [(info.pid, info.addrs)] else []
    match fuel with
    | some 0 => (adds, [])
    | some (k + 1) =>
      let r := findProvidersLoop localID (some k) rest
      (adds ++ r.1, info.pid :: r.2)
    | none =>
      let r := findProvidersLoop localID none rest
      (adds ++ r.1, info.pid :: r.2)

/-- Observable effects of `impl.handleNewStream` on one inbound stream, in
program order.  `receiveErrorAsync` is the `go bsnet.receiver.ReceiveError`
call: the constructor name records that the notification is asynchronous
(spawned, not awaited), and it occurs exactly where the `go` statement
runs. -/
inductive BsEffect where
  | readMessage
  | receiveErrorAsync (e : String)
  | logErrorEv
  | logDebugEv
  | receiveMessage (p : Nat) (m : Nat)
  | closeStream
deriving DecidableEq, Repr

/-- An inbound protocol-tagged stream: the remote peer behind it and what
`bsmsg.FromNet` yields when the stream is read. -/
structure InStream where
  remote : Nat
  decoded : Except String Nat
deriving Repr

/-- `impl.handleNewStream`: close is deferred, so it is the last effect on
every path.  A nil receiver drops the stream without reading; a decode
failure notifies the receiver's error hook asynchronously, logs, and
returns; success hands the sender and message to the receiver. -/
def handleNewStream (hasReceiver : Bool) (s : InStream) : List BsEffect :=
  if hasReceiver = false then [.closeStream]
  else
    match s.decoded with
    | .error e => [.readMessage, .receiveErrorAsync e, .logErrorEv, .closeStream]
    | .ok m => [.readMessage, .logDebugEv, .receiveMessage s.remote m, .closeStream]

/-- The host dispatches each inbound protocol-tagged stream to an
independent invocation of the handler (`host.SetStreamHandler(
ProtocolBitswap, bitswapNetwork.handleNewStream)`); one stream's handling
does not feed into the next. -/
def serveStreams (hasReceiver : Bool) (ss : List InStream) : List (List BsEffect) :=
  ss.map (handleNewStream hasReceiver)

/-- Network-level events of one `SendMessage`/`SendRequest` call, in order.
`openOk` marks a stream successfully opened by `host.NewStream`. -/
inductive NetEv where
  | connectAttempt
  | openOk
  | writeEv
  | readEv
  | closeEv
deriving DecidableEq, Repr

/-- `impl.SendMessage`: connect, open a stream (close deferred), write the
message (`outgoing.ToNet`), and return the first error, if any.  Inputs are
the outcomes of the three external operations. -/
def SendMessage (connectErr openErr writeErr : Option String) :
    List NetEv × Option String :=
  match connectErr with
  | some e => ([.connectAttempt], some e)
  | none =>
    match openErr with
    | some e => ([.connectAttempt], some e)
    | none =>
      match writeErr with
      | some e => ([.connectAttempt, .openOk, .writeEv, .closeEv], some e)
      | none => ([.connectAttempt, .openOk, .writeEv, .closeEv], none)

/-- `impl.SendRequest`: as `SendMessage`, then read exactly one response
(`bsmsg.FromNet`) from the same stream before the deferred close runs.
The second component is (returned message, returned error). -/
def SendRequest (connectErr openErr writeErr : Option String)
    (readRes : Except String Nat) : List NetEv × (Option Nat × Option String) :=
  match connectErr with
  | some e => ([.connectAttempt], (none, some e))
  | none =>
    match openErr with
    | some e => ([.connectAttempt], (none, some e))
    | none =>
      match writeErr with
      | some e => ([.connectAttempt, .openOk, .writeEv, .closeEv], (none, some e))
      | none =>
        match readRes with
        | .error e =>
          ([.connectAttempt, .openOk, .writeEv, .readEv, .closeEv], (none, some e))
        | .ok m =>
          ([.connectAttempt, .openOk, .writeEv, .readEv, .closeEv], (some m, none))

end bsnet

namespace core

/-- The fields of `IpfsNode` that `StartOnlineServices` and `teardown`
touch.  External capability handles (host, routing, ...) are opaque
naturals; an unset Go field (nil interface/pointer) is `none`.
`peerstoreInit` records whether `n.Peerstore` is non-nil, and the two key
lists record what `loadPrivateKey` installed into the peerstore. -/
structure IpfsNode where
  identity : String
  peerstoreInit : Bool
  peerstorePrivKeys : List (String × Nat)
  peerstorePubKeys : List (String × Nat)
  privateKey : Option Nat
  peerHost : Option Nat
  diagnostics : Option Nat
  routing : Option Nat
  exchange : Option Nat
  namesys : Option Nat
  reprovider : Option Nat
  bootstrapper : Option Nat
deriving DecidableEq, Repr

/-- Modelled from the spec: the crypto collaborator's public-key derivation
used by `n.Peerstore.AddPubKey(n.Identity, sk.GetPublic())`. -/
def derivePublic (sk : Nat) : Nat := sk + 1

/-- Outcomes of the external collaborators each startup step calls:
the config/key decoding inside `loadPrivateKey`, `constructPeerHost`,
`constructDHTRouting`, and the `Bootstrap` call (whose success yields the
new bootstrapper handle). -/
structure OnlineEnv where
  loadKeyRes : Except String Nat
  hostRes : Except String Nat
  dhtRes : Except String Nat
  bootstrapRes : Except String Nat
deriving Repr

/-- `IpfsNode.loadPrivateKey`: ordering and repeat guards, then the external
load; on success the key is stored on the node and installed into the
peerstore.  Returns the (possibly updated) node and an error, if any. -/
def loadPrivateKeyM (env : OnlineEnv) (n : IpfsNode) : IpfsNode × Option String :=
  if n.identity = "" ∨ n.peerstoreInit = false then
    (n, some "loaded private key out of order.")
  else if n.privateKey.isSome then
    (n, some "private key already loaded")
  else
    match env.loadKeyRes with
    | .error e => (n, some e)
    | .ok sk =>
      ({ n with
          privateKey := some sk
          peerstorePrivKeys := (n.identity, sk) :: n.peerstorePrivKeys
          peerstorePubKeys := (n.identity, derivePublic sk) :: n.peerstorePubKeys },
        none)

/-- The startup steps of `StartOnlineServices`, in source order. -/
inductive StartStep where
  | loadedKey
  | builtHost
  | builtDiagnostics
  | builtRouting
  | builtExchange
  | builtNamesys
  | startedReprovider
  | ranBootstrap
deriving DecidableEq, Repr

/-- `IpfsNode.StartOnlineServices`: the `n.PeerHost != nil` idempotency
guard, then private key, host, diagnostics, DHT routing, bitswap exchange,
namesys, the reprovider loop, and finally `Bootstrap`.  Since `n` is
mutated through a pointer in Go, a failing later step leaves the earlier
steps' field writes in place; the result is therefore the final node state,
the list of steps that ran, and the returned error, if any. -/
def StartOnlineServices (env : OnlineEnv) (n : IpfsNode) :
    IpfsNode × List StartStep × Option String :=
  if n.peerHost.isSome then (n, [], some "node already online")
  else
    match loadPrivateKeyM env n with
    | (n1, some e) => (n1, [], some e)
    | (n1, none) =>
      match env.hostRes with
      | .error e => (n1, [.loadedKey], some e)
      | .ok h =>
        let n2 := { n1 with peerHost := some h, diagnostics := some h }
        match env.dhtRes with
        | .error e => (n2, [.loadedKey, .builtHost, .builtDiagnostics], some e)
        | .ok d =>
          let n3 := { n2 with
                      routing := some d
                      exchange := some d
                      namesys := some d
                      reprovider := some d }
          let steps : List StartStep :=
            [.loadedKey, .builtHost, .builtDiagnostics, .builtRouting,
             .builtExchange, .builtNamesys, .startedReprovider, .ranBootstrap]
          match env.bootstrapRes with
          | .error e => (n3, steps, some e)
          | .ok b => ({ n3 with bootstrapper := some b }, steps, none)

/-- The owned resources `teardown` considers, in the order the source adds
them to `closers`. -/
inductive Res where
  | bootstrapperRes
  | repoRes
  | blocksRes
  | routingRes
  | hostRes
deriving DecidableEq, Repr

/-- The closable state of a node at teardown time: for each resource,
`none` when absent (nil field, or a Routing that is not a DHT), and
`some c` when present, where `c` is what its `Close()` will return. -/
structure TeardownNode where
  bootstrapper : Option (Option String)
  repo : Option (Option String)
  blocks : Option (Option String)
  routingDHT : Option (Option String)
  peerHost : Option (Option String)
deriving DecidableEq, Repr

/-- The field of `TeardownNode` behind each `Res` tag. -/
def TeardownNode.field (n : TeardownNode) : Res → Option (Option String)
  | .bootstrapperRes => n.bootstrapper
  | .repoRes => n.repo
  | .blocksRes => n.blocks
  | .routingRes => n.routingDHT
  | .hostRes => n.peerHost

/-- The `addCloser` closure: append the resource when non-nil. -/
def addCloser (cs : List (Res × Option String)) (c : Option (Option String))
    (r : Res) : List (Res × Option String) :=
  match c with
  | none => cs
  | some res => cs ++ [(r, res)]

/-- `IpfsNode.teardown`: build `closers` via `addCloser` in source order,
close every one of them collecting errors (never short-circuiting), and
return the close-attempt order together with `errs[0]`, if any. -/
def teardown (n : TeardownNode) : List Res × Option String :=
  let closers :=
    addCloser
      (addCloser
        (addCloser
          (addCloser
            (addCloser [] n.bootstrapper .bootstrapperRes)
            n.repo .repoRes)
          n.blocks .blocksRes)
        n.routingDHT .routingRes)
      n.peerHost .hostRes
  let errs := closers.foldl (fun acc c =>
    match c.2 with
    | some e => acc ++ [e]
    | none => acc) []
  (closers.map Prod.fst, errs.head?)

end core

/-! Concrete values used by the witness theorems. -/

/-- An existing stored record for id `[5]`: has a private key, one address,
a version and a role. -/
def dExisting : peer.PeerData :=
  { pid := [5], pubKey := none, privKey := some [7]
    addresses := ["x"], versions := ["v1"], role := 1 }

/-- An incoming record for the same id `[5]`: has a public key, another
address, a newer version and role. -/
def dIncoming : peer.PeerData :=
  { pid := [5], pubKey := some [9], privKey := none
    addresses := ["y"], versions := ["v2"], role := 2 }

/-- A store holding `dExisting` under reference 0 at key `[5]`; reference 1
points at the distinct record `dIncoming` with the same id. -/
def psC2 : peer.Peerstore :=
  { data := [([5], 0)]
    heap := fun r => if r = 0 then dExisting else dIncoming
    nextRef := 2 }

/-- Environment in which every external startup step would succeed. -/
def envOk : core.OnlineEnv :=
  { loadKeyRes := .ok 0, hostRes := .ok 0, dhtRes := .ok 0, bootstrapRes := .ok 0 }

/-- A node that is already online: its `PeerHost` field is set. -/
def nodeOnline : core.IpfsNode :=
  { identity := "QmSelf", peerstoreInit := true
    peerstorePrivKeys := [], peerstorePubKeys := []
    privateKey := some 3, peerHost := some 5, diagnostics := some 5
    routing := some 4, exchange := some 4, namesys := some 4
    reprovider := some 4, bootstrapper := some 9 }

/-- A teardown-time node: bootstrapper present and closing cleanly, repo
present and failing with "re", blocks absent, a DHT routing failing with
"rt", host present and closing cleanly. -/
def tdn : core.TeardownNode :=
  { bootstrapper := some none, repo := some (some "re"), blocks := none
    routingDHT := some (some "rt"), peerHost := some none }

/-! ## Claim theorems -/

/-- C1 (counterexample): the claim says the local node's own id is never
emitted on the output sequence.  But when the upstream Routing search yields
a record whose id IS the local id (here 0), the loop merely skips the
address recording and still forwards the id: the output contains the local
id.  `findProvidersLoop 0 none [one record for id 0] = (no address
recordings, output [0])`. -/
theorem findProvidersAsync_emits_self :
    bsnet.findProvidersLoop 0 none [⟨0, ["a"]⟩] = ([], [0]) := by
  decide

/-- C1 (amended): for every provider record yielded by the upstream Routing
search, its addresses are recorded into the PeerRegistry if and only if its
id differs from the local node's id; but every yielded record's id —
including the local node's own — is forwarded on the output sequence
(absent cancellation). -/
theorem findProvidersAsync_records_iff_remote (localID : Nat)
    (infos : List bsnet.ProviderInfo) :
    bsnet.findProvidersLoop localID none infos =
      (infos.filterMap (fun i => if i.pid ≠ localID then some (i.pid, i.addrs) else none),
       infos.map (fun i => i.pid)) := by
  induction infos with
  | nil => rfl
  | cons info rest ih =>
    by_cases h : info.pid = localID <;>
      simp [bsnet.findProvidersLoop, ih, h]

/-- C9: an inbound protocol-tagged stream arriving while no delegate
receiver is installed is silently dropped: the handler closes the stream
and returns without reading a message and without notifying anyone. -/
theorem handleNewStream_nil_receiver (s : bsnet.InStream) :
    bsnet.handleNewStream false s = [.closeStream] ∧
    bsnet.BsEffect.readMessage ∉ bsnet.handleNewStream false s ∧
    (∀ e, bsnet.BsEffect.receiveErrorAsync e ∉ bsnet.handleNewStream false s) ∧
    (∀ p m, bsnet.BsEffect.receiveMessage p m ∉ bsnet.handleNewStream false s) := by
  refine ⟨rfl, ?_, ?_, ?_⟩ <;> simp [bsnet.handleNewStream]

/-- C5: on an inbound stream whose message fails to decode, the installed
receiver's error hook is notified exactly once (and asynchronously: the
`receiveErrorAsync` effect is the spawned `go receiver.ReceiveError`), the
stream is closed exactly once and last, no message is delivered, and the
handling of subsequent inbound streams is exactly what it would have been
without the malformed one. -/
theorem handleNewStream_decode_failure (e : String) (remote : Nat)
    (rest : List bsnet.InStream) :
    ((bsnet.handleNewStream true ⟨remote, .error e⟩).count (.receiveErrorAsync e) = 1) ∧
    ((bsnet.handleNewStream true ⟨remote, .error e⟩).count .closeStream = 1) ∧
    ((bsnet.handleNewStream true ⟨remote, .error e⟩).getLast? = some .closeStream) ∧
    (∀ p m, bsnet.BsEffect.receiveMessage p m ∉
      bsnet.handleNewStream true ⟨remote, .error e⟩) ∧
    (bsnet.serveStreams true (⟨remote, .error e⟩ :: rest) =
      bsnet.handleNewStream true ⟨remote, .error e⟩ :: bsnet.serveStreams true rest) := by
  refine ⟨?_, ?_, ?_, ?_, ?_⟩ <;>
    simp [bsnet.handleNewStream, bsnet.serveStreams, List.count_cons, List.getLast?]

/-- C6: on every exit path of `SendMessage` and `SendRequest`, a stream is
closed exactly when one was opened, and then exactly once, with the close
the last network event before the call returns; a `SendRequest` read
failure after a successful write is still surfaced as an error to the
caller, with the stream closed. -/
theorem send_stream_closed_exactly_once (ce oe we : Option String)
    (rr : Except String Nat) :
    ((bsnet.SendMessage ce oe we).1.count .closeEv =
      if bsnet.NetEv.openOk ∈ (bsnet.SendMessage ce oe we).1 then 1 else 0) ∧
    ((bsnet.SendRequest ce oe we rr).1.count .closeEv =
      if bsnet.NetEv.openOk ∈ (bsnet.SendRequest ce oe we rr).1 then 1 else 0) ∧
    (bsnet.NetEv.openOk ∈ (bsnet.SendMessage ce oe we).1 →
      (bsnet.SendMessage ce oe we).1.getLast? = some .closeEv) ∧
    (bsnet.NetEv.openOk ∈ (bsnet.SendRequest ce oe we rr).1 →
      (bsnet.SendRequest ce oe we rr).1.getLast? = some .closeEv) ∧
    (∀ er, rr = .error er →
      (bsnet.SendRequest none none none rr).2.2 = some er ∧
      bsnet.NetEv.closeEv ∈ (bsnet.SendRequest none none none rr).1) := by
  rcases ce with _ | ce <;> rcases oe with _ | oe <;> rcases we with _ | we <;>
    rcases rr with er | m <;>
      simp [bsnet.SendMessage, bsnet.SendRequest, List.count_cons, List.getLast?]

/-- C2: for every record passed to `Add`: if no entry exists under its id,
it is stored (found by subsequent lookup) and returned with no other record
touched; if the stored entry is the very same record, it is returned and
the store is unmodified; otherwise it is merged into the existing entry and
that existing, now-updated entry — not the input — is returned, with the
map and all other records untouched. -/
theorem peerstore_Add_canonical (ps : peer.Peerstore) (r : peer.PeerRef) :
    (ps.lookup (ps.keyOf r) = none →
      (ps.Add r).2 = r ∧
      (ps.Add r).1.lookup (ps.keyOf r) = some r ∧
      (ps.Add r).1.heap = ps.heap) ∧
    (ps.lookup (ps.keyOf r) = some r → ps.Add r = (ps, r)) ∧
    (∀ e, ps.lookup (ps.keyOf r) = some e → e ≠ r →
      (ps.Add r).2 = e ∧
      (ps.Add r).1.heap e = peer.update (ps.heap e) (ps.heap r) ∧
      (∀ r2, r2 ≠ e → (ps.Add r).1.heap r2 = ps.heap r2) ∧
      (ps.Add r).1.data = ps.data) := by
  refine ⟨?_, ?_, ?_⟩
  · intro h
    refine ⟨?_, ?_, ?_⟩
    · simp [peer.Peerstore.Add, h]
    · simp only [peer.Peerstore.Add, h]
      simp [peer.Peerstore.lookup, peer.Peerstore.store, List.find?_cons]
    · simp [peer.Peerstore.Add, h, peer.Peerstore.store]
  · intro h
    simp [peer.Peerstore.Add, h]
  · intro e h hne
    simp only [peer.Peerstore.Add, h]
    rw [if_neg hne]
    refine ⟨rfl, ?_, ?_, rfl⟩
    · simp [peer.Peerstore.heapSet]
    · intro r2 hr2
      simp [peer.Peerstore.heapSet, hr2]

/-- C2 (witness): adding the distinct record behind reference 1 (id `[5]`)
to the store already holding reference 0 under `[5]` returns reference 0,
with `dIncoming` merged into `dExisting` in place. -/
theorem peerstore_Add_canonical_witness :
    (psC2.Add 1).2 = 0 ∧ (psC2.Add 1).1.heap 0 = peer.update dExisting dIncoming := by
  have h := (peerstore_Add_canonical psC2 1).2.2 0 (by decide) (by decide)
  exact ⟨h.1, h.2.1⟩

/-- C3 (counterexample): the claim says a nil or empty id makes both `Get`
and `FindOrCreate` report an error to the caller.  But `FindOrCreate` on
the empty (non-nil) id returns a freshly created record with a nil error,
and on the nil id it panics rather than returning anything. -/
theorem findOrCreate_empty_id_no_error :
    (peer.NewPeerstore.FindOrCreate (some [])).isOk = true ∧
    peer.NewPeerstore.FindOrCreate none = .panics :=
  ⟨rfl, rfl⟩

/-- C3 (amended): `Get` on a nil id reports the precondition error and on an
absent id (the empty non-nil id included) reports NotFound; `FindOrCreate`
never returns an error to the caller: on a nil id it panics, and on any
non-nil id — empty included — it succeeds with a record. -/
theorem peerstore_nil_empty_id (ps : peer.Peerstore) :
    (ps.Get none = .error .invalidArgument) ∧
    (ps.FindOrCreate none = .panics) ∧
    (∀ bytes, ps.lookup bytes = none → ps.Get (some bytes) = .error .notFound) ∧
    (∀ bytes, (ps.FindOrCreate (some bytes)).isOk = true) := by
  refine ⟨rfl, rfl, ?_, ?_⟩
  · intro bytes h
    simp [peer.Peerstore.Get, h]
  · intro bytes
    cases h : ps.lookup bytes <;>
      simp [peer.Peerstore.FindOrCreate, h, peer.FOCResult.isOk]

/-- C3 (witness): on the empty store, `Get` of the empty non-nil id reports
NotFound (not the nil-argument precondition error). -/
theorem peerstore_nil_empty_id_witness :
    peer.NewPeerstore.Get (some []) = .error .notFound :=
  (peerstore_nil_empty_id peer.NewPeerstore).2.2.1 [] rfl

/-- C4: when a public key is supplied that differs from the one derived
from the supplied private key, `WithKeyPair` returns the KeyMismatch error
and the registry is returned unchanged — no entry added or modified. -/
theorem withKeyPair_mismatch_unchanged (ps : peer.Peerstore) (skv pkv : List Nat)
    (h : pkv ≠ peer.getPublic skv) :
    ps.WithKeyPair (some skv) (some pkv) = .err .keyMismatch ps := by
  simp [peer.Peerstore.WithKeyPair, h]

/-- C4 (witness): on the empty store, `[9]` is not the public key derived
from `[1]`, so `WithKeyPair` reports KeyMismatch and the store stays empty. -/
theorem withKeyPair_mismatch_unchanged_witness :
    peer.NewPeerstore.WithKeyPair (some [1]) (some [9]) =
      .err .keyMismatch peer.NewPeerstore :=
  withKeyPair_mismatch_unchanged peer.NewPeerstore [1] [9] (by decide)

/-- C10: `WithKeyPair` rejects with an error return only the case where
both keys are nil; a nil private key with a non-nil public key panics on
the nil dereference `sk.GetPublic()` instead of returning, and whenever the
private key is non-nil the call never panics. -/
theorem withKeyPair_nil_cases (ps : peer.Peerstore) :
    (ps.WithKeyPair none none = .err .nilKeys ps) ∧
    (∀ pkv, ps.WithKeyPair none (some pkv) = .panics) ∧
    (∀ skv pkOpt, (ps.WithKeyPair (some skv) pkOpt).isPanic = false) := by
  refine ⟨rfl, fun pkv => rfl, ?_⟩
  intro skv pkOpt
  cases pkOpt with
  | none => rfl
  | some pkv =>
    by_cases h : pkv = peer.getPublic skv <;>
      simp [peer.Peerstore.WithKeyPair, h, peer.IDFromPubKey, peer.WKPResult.isPanic]

/-- C10 (witness): on the empty store, both-nil keys yield the nil-keys
error with the store unchanged. -/
theorem withKeyPair_nil_cases_witness :
    peer.NewPeerstore.WithKeyPair none none = .err .nilKeys peer.NewPeerstore :=
  (withKeyPair_nil_cases peer.NewPeerstore).1

/-- C7: calling `StartOnlineServices` on a node that is already online
(its peer host is set) returns the AlreadyOnline error, runs no startup
step, and leaves every field of the node unchanged. -/
theorem startOnlineServices_already_online (env : core.OnlineEnv)
    (n : core.IpfsNode) (h : Nat) (hh : n.peerHost = some h) :
    core.StartOnlineServices env n = (n, [], some "node already online") := by
  simp [core.StartOnlineServices, hh]

/-- C7 (witness): starting online services on the concrete online node, in
an environment where every step would succeed, reports AlreadyOnline with
the node unchanged and no step run. -/
theorem startOnlineServices_already_online_witness :
    core.StartOnlineServices envOk nodeOnline =
      (nodeOnline, [], some "node already online") :=
  startOnlineServices_already_online envOk nodeOnline 5 rfl

/-- C8: teardown attempts a close on exactly the present resources, in the
fixed order bootstrapper, persistent storage (repo), block service,
DHT routing, network host — regardless of earlier failures — and returns
the first close error encountered in that order (none when all succeed). -/
theorem teardown_order_first_error (n : core.TeardownNode) :
    ((core.teardown n).1 =
      [core.Res.bootstrapperRes, .repoRes, .blocksRes, .routingRes, .hostRes].filter
        (fun r => (n.field r).isSome)) ∧
    ((core.teardown n).2 =
      ([core.Res.bootstrapperRes, .repoRes, .blocksRes, .routingRes, .hostRes].filterMap
        (fun r => (n.field r).bind id)).head?) := by
  obtain ⟨b, rp, bl, rt, ho⟩ := n
  rcases b with _ | (_ | eb) <;> rcases rp with _ | (_ | ep) <;>
    rcases bl with _ | (_ | el) <;> rcases rt with _ | (_ | et) <;>
      rcases ho with _ | (_ | eh) <;> exact ⟨rfl, rfl⟩

/-- C8 (witness): on the concrete node `tdn` (bootstrapper closes cleanly,
repo fails with "re", blocks absent, routing fails with "rt", host closes
cleanly) every present resource is attempted in the fixed order and the
first error, "re", is the one returned. -/
theorem teardown_order_first_error_witness :
    (core.teardown tdn).1 =
      [core.Res.bootstrapperRes, .repoRes, .routingRes, .hostRes] ∧
    (core.teardown tdn).2 = some "re" := by
  have h := teardown_order_first_error tdn
  exact ⟨h.1.trans (by decide), h.2.trans (by decide)⟩

/-- C1 (witness): with local id 1 and two upstream records (one for the
local id, one remote), only the remote record's addresses are recorded,
and both ids — the local one included — are emitted. -/
theorem findProvidersAsync_records_iff_remote_witness :
    bsnet.findProvidersLoop 1 none [⟨1, ["a"]⟩, ⟨2, ["b"]⟩] =
      ([(2, ["b"])], [1, 2]) := by
  have h := findProvidersAsync_records_iff_remote 1 [⟨1, ["a"]⟩, ⟨2, ["b"]⟩]
  exact h.trans (by decide)

/-- C5 (witness): a stream from peer 7 failing to decode with "bad"
notifies the error hook exactly once. -/
theorem handleNewStream_decode_failure_witness :
    (bsnet.handleNewStream true ⟨7, .error "bad"⟩).count (.receiveErrorAsync "bad") = 1 :=
  (handleNewStream_decode_failure "bad" 7 []).1

/-- C6 (witness): with connect, open and write succeeding and the read
failing with "boom", `SendRequest` surfaces the error and the stream is
closed. -/
theorem send_stream_closed_exactly_once_witness :
    (bsnet.SendRequest none none none (.error "boom")).2.2 = some "boom" ∧
    bsnet.NetEv.closeEv ∈ (bsnet.SendRequest none none none (.error "boom")).1 :=
  (send_stream_closed_exactly_once none none none (.error "boom")).2.2.2.2 "boom" rfl

/-- C9 (witness): a well-formed stream from peer 7 arriving with no
receiver installed is dropped with only a close. -/
theorem handleNewStream_nil_receiver_witness :
    bsnet.handleNewStream false ⟨7, .ok 3⟩ = [.closeStream] :=
  (handleNewStream_nil_receiver ⟨7, .ok 3⟩).1
